import Mathlib

set_option maxHeartbeats 1000000

/-!
Verification of the kitties pallet (src/pallets/kitties/src/lib.rs).

The pallet's storage (`KittiesCount`, `Kitties`, `Owner`) is embedded as an
explicit `State`, and the four dispatchables (`create`, `breed`, `set_price`,
`buy_kitty`) as state-passing functions that mirror the Rust bodies line by
line.  `u32` arithmetic is `Nat` with an explicit `% 2 ^ 32` where the source
increments the counter.  The external collaborators (randomness beacon, SCALE
encoding, blake2_128 digest, the balances ledger) are out of scope of the
repository and are taken as parameters or modelled from their spec contracts.
-/

/-- A kitty's 16-byte DNA: one byte value per index, as in `[u8; 16]`. -/
abbrev Dna := Fin 16 → Nat

/-- The record stored in the `Kitties` map: `pub struct Kitty { dna, price }`. -/
structure Kitty where
  dna : Dna
  price : Option Nat

/-- Pallet storage plus the external ledger's balances.  `kittiesCount` is the
`KittiesCount` storage value (`Option` because the storage item may be unset),
`kitties` and `owner` are the `Kitties` and `Owner` storage maps, and
`balances` is the external `Currency`'s free-balance view. -/
@[ext]
structure State where
  kittiesCount : Option Nat
  kitties : Nat → Option Kitty
  owner : Nat → Option Nat
  balances : Nat → Nat

/-- Per-call environment: the randomness beacon (`T::Randomness::random`,
keyed by the domain-separation tag) and the current block number. -/
structure Env where
  random : List Nat → List Nat
  block : Nat

/-- The pallet's `Error<T>` enum, plus `TransferFailed` for the dispatch
error propagated by `?` from `T::Currency::transfer`. -/
inductive Err where
  | KittiesCountOverflow
  | CanNotYourSelf
  | NotOwner
  | GenesCanNotSame
  | InvalidKittyIndex
  | PriceNotZero
  | PriceIsNone
  | MoneyNotEnough
  | TransferFailed
deriving DecidableEq

/-- The pallet's `Event<T>` enum. -/
inductive Event where
  | KittyCreate (who kittyId : Nat)
  | Transfer (who kittyId toWhom : Nat)
  | BreedSuccess (who kittyId1 kittyId2 : Nat)
  | SetPriceSuccess (who kittyId price : Nat)
  | TransferSuccess (buyer seller kittyId : Nat)
deriving DecidableEq

/-- Outcome of a dispatchable: `ok` carries the post-state and the deposited
event; `err` carries the error and the state as left by the call (the Rust
bodies perform no storage write before any error return, which the embedding
makes explicit by recording the state at each error site). -/
inductive CallResult where
  | ok (st : State) (ev : Event)
  | err (e : Err) (st : State)

/-- `StorageMap::insert` on a map embedded as a function. -/
def insertM {α : Type} (m : Nat → Option α) (k : Nat) (v : α) : Nat → Option α :=
  fun i => if i = k then some v else m i

/-- `KittyIndex::max_value()`, i.e. `u32::MAX`. -/
def U32MAX : Nat := 4294967295

/-- The byte string `b"dna"` used as the domain-separation tag. -/
def dnaTag : List Nat := [100, 110, 97]

/-- `gen_dna`: hash the SCALE encoding of the pair
`(T::Randomness::random(b"dna").0, block_number)` with `blake2_128`.
The digest `hash` and the pair encoding `enc` are external capabilities
(`sp_io::hashing::blake2_128` and `codec::Encode`), taken as parameters. -/
def gen_dna (hash : List Nat → Dna) (enc : List Nat → Nat → List Nat) (env : Env) : Dna :=
  hash (enc (env.random dnaTag) env.block)

/-- The identifier `breed` mints: `match Self::kitties_count() { None => 1, Some(id) => id }`. -/
def nextId (st : State) : Nat :=
  match st.kittiesCount with
  | none => 1
  | some c => c

/-- The per-byte genome combination of `breed`'s loop:
`new_dna[i] = selector[i] & dna_1[i] | (selector[i] & dna_2[i])`. -/
def childDna (selector dna1 dna2 : Dna) : Dna :=
  fun i => (selector i &&& dna1 i) ||| (selector i &&& dna2 i)

/-- `ExistenceRequirement` passed to `Currency::transfer`. -/
inductive ExistenceRequirement where
  | KeepAlive
  | AllowDeath

/-- Modelled from the spec: the external funds ledger's
`transfer(from, to, amount, mode)` (spec section 6), which is implemented by the
out-of-scope currency pallet.  It fails when the payer's balance does not cover
`amount`; under `KeepAlive` ("mustRemainViable") it also fails when the payer's
post-transfer balance would drop below the minimum-existence threshold `ed`.
On success the amount moves from payer to payee. -/
def transfer (ed : Nat) (bal : Nat → Nat) (src dst amount : Nat)
    (mode : ExistenceRequirement) : Option (Nat → Nat) :=
  if bal src < amount then none
  else
    let b1 : Nat → Nat := fun a => if a = src then bal src - amount else bal a
    let b2 : Nat → Nat := fun a => if a = dst then b1 dst + amount else b1 a
    match mode with
    | .KeepAlive => if b2 src < ed then none else some b2
    | .AllowDeath => some b2

/-- `create(origin)`: mint a kitty for `who`.  Identifier is 1 when the counter
is unset, otherwise the counter value, rejected with `KittiesCountOverflow`
when the counter equals `u32::MAX`; stores `{dna, price: None}`, records the
owner, and puts back `kitty_id + 1`. -/
def create (hash : List Nat → Dna) (enc : List Nat → Nat → List Nat) (env : Env)
    (who : Nat) (st : State) : CallResult :=
  let kid? : Option Nat :=
    match st.kittiesCount with
    | none => some 1
    | some index => if index = U32MAX then none else some index
  match kid? with
  | none => .err .KittiesCountOverflow st
  | some kitty_id =>
    let dna := gen_dna hash enc env
    .ok { st with
          kitties := insertM st.kitties kitty_id ⟨dna, none⟩
          owner := insertM st.owner kitty_id who
          kittiesCount := some ((kitty_id + 1) % 2 ^ 32) }
        (.KittyCreate who kitty_id)

/-- `breed(origin, kitty_id_1, kitty_id_2)`: requires distinct, existing
parents; mints at `nextId` (note: unlike `create`, no overflow check on the
counter), combines the parents' genomes with a fresh `gen_dna` selector, and
puts back `kitty_id + 1` (as `u32`, wrapping). -/
def breed (hash : List Nat → Dna) (enc : List Nat → Nat → List Nat) (env : Env)
    (who kitty_id_1 kitty_id_2 : Nat) (st : State) : CallResult :=
  if kitty_id_1 = kitty_id_2 then .err .GenesCanNotSame st
  else
    match st.kitties kitty_id_1 with
    | none => .err .InvalidKittyIndex st
    | some kitty_1 =>
      match st.kitties kitty_id_2 with
      | none => .err .InvalidKittyIndex st
      | some kitty_2 =>
        let kitty_id := nextId st
        let selector := gen_dna hash enc env
        let new_dna := childDna selector kitty_1.dna kitty_2.dna
        .ok { st with
              kitties := insertM st.kitties kitty_id ⟨new_dna, none⟩
              owner := insertM st.owner kitty_id who
              kittiesCount := some ((kitty_id + 1) % 2 ^ 32) }
            (.BreedSuccess who kitty_id_1 kitty_id_2)

/-- `set_price(origin, kitty_id, price)`: requires the kitty to exist, the
sender to be its recorded owner, and `price > 0`; then stores the kitty with
`price = Some(price)`. -/
def set_price (sender kitty_id price : Nat) (st : State) : CallResult :=
  match st.kitties kitty_id with
  | none => .err .InvalidKittyIndex st
  | some kitty =>
    if st.owner kitty_id = some sender then
      if 0 < price then
        .ok { st with kitties := insertM st.kitties kitty_id ⟨kitty.dna, some price⟩ }
            (.SetPriceSuccess sender kitty_id price)
      else .err .PriceNotZero st
    else .err .NotOwner st

/-- `buy_kitty(origin, kitty_id)`: requires the kitty to exist, to have a
price, and the buyer's free balance to cover it; then `Owner::get(..).unwrap()`
(the `none` result models the panic of `unwrap` on a missing owner record),
`Currency::transfer(buyer, seller, price, KeepAlive)` (a failure aborts the
`#[transactional]` call with the registry untouched, since every storage write
comes after the transfer), then reassigns the owner, clears the price, and
deposits `TransferSuccess`. -/
def buy_kitty (ed : Nat) (buyer kitty_id : Nat) (st : State) : Option CallResult :=
  match st.kitties kitty_id with
  | none => some (.err .InvalidKittyIndex st)
  | some kitty =>
    match kitty.price with
    | none => some (.err .PriceIsNone st)
    | some price =>
      if st.balances buyer < price then some (.err .MoneyNotEnough st)
      else
        match st.owner kitty_id with
        | none => none
        | some seller_id =>
          match transfer ed st.balances buyer seller_id price .KeepAlive with
          | none => some (.err .TransferFailed st)
          | some bal2 =>
            some (.ok { st with
                        balances := bal2
                        owner := insertM st.owner kitty_id buyer
                        kitties := insertM st.kitties kitty_id ⟨kitty.dna, none⟩ }
                  (.TransferSuccess buyer seller_id kitty_id))

/-- Genesis registry: no counter entry, empty maps, arbitrary external balances. -/
def initState (bal : Nat → Nat) : State where
  kittiesCount := none
  kitties := fun _ => none
  owner := fun _ => none
  balances := bal

/-- States reachable from genesis by successful dispatchable calls.  The
digest, the encoding and the existential deposit are fixed for a chain; the
randomness/block environment varies per call; `extBalance` lets the external
ledger move balances between calls (other pallets are out of scope but do
act on the same ledger). -/
inductive Reachable (hash : List Nat → Dna) (enc : List Nat → Nat → List Nat)
    (ed : Nat) : State → Prop where
  | init (bal : Nat → Nat) : Reachable hash enc ed (initState bal)
  | stepCreate {st st' : State} {env : Env} {who : Nat} {ev : Event} :
      Reachable hash enc ed st → create hash enc env who st = .ok st' ev →
      Reachable hash enc ed st'
  | stepBreed {st st' : State} {env : Env} {who k1 k2 : Nat} {ev : Event} :
      Reachable hash enc ed st → breed hash enc env who k1 k2 st = .ok st' ev →
      Reachable hash enc ed st'
  | stepSetPrice {st st' : State} {who k price : Nat} {ev : Event} :
      Reachable hash enc ed st → set_price who k price st = .ok st' ev →
      Reachable hash enc ed st'
  | stepBuy {st st' : State} {buyer k : Nat} {ev : Event} :
      Reachable hash enc ed st → buy_kitty ed buyer k st = some (.ok st' ev) →
      Reachable hash enc ed st'
  | extBalance {st : State} (bal : Nat → Nat) :
      Reachable hash enc ed st → Reachable hash enc ed { st with balances := bal }

/-! ## Concrete instances used to exercise the dispatchables

A sample digest, encoding and per-call environments.  Any computable stand-ins
work here: all general theorems quantify over the digest and encoding, and the
concrete instances only serve to evaluate the dispatchables on explicit
inputs. -/

/-- Sample digest: every output byte is the head of the input. -/
def h0 : List Nat → Dna := fun l => fun _ => l.headD 0

/-- Sample pair encoding: block number consed onto the randomness bytes. -/
def enc0 : List Nat → Nat → List Nat := fun r b => b :: r

/-- Environment at block 0 with empty randomness. -/
def env0 : Env := ⟨fun _ => [], 0⟩

/-- Environment at block 1 with empty randomness. -/
def env1 : Env := ⟨fun _ => [], 1⟩

/-- Environment at block 15 with empty randomness. -/
def env15 : Env := ⟨fun _ => [], 15⟩

/-- Two environments agreeing on the "dna" tag and the block, differing on
every other randomness query. -/
def envA : Env := ⟨fun t => if t = dnaTag then [5] else [1], 3⟩

/-- Companion of `envA`: same "dna" randomness and block, other tags differ. -/
def envB : Env := ⟨fun t => if t = dnaTag then [5] else [2], 3⟩

/-- All-zero initial balances. -/
def bal0 : Nat → Nat := fun _ => 0

/-- The genome `gen_dna` produces under `h0`, `enc0`, `env0`: all bytes 0. -/
def dna0 : Dna := gen_dna h0 enc0 env0

/-- The genome `gen_dna` produces under `h0`, `enc0`, `env1`: all bytes 1. -/
def dna1 : Dna := gen_dna h0 enc0 env1

/-- All-zero parent genome for the breeding-formula example. -/
def dnaA : Dna := fun _ => 0

/-- All-0xFF parent genome for the breeding-formula example. -/
def dnaB : Dna := fun _ => 255

/-- A state whose counter sits at `u32::MAX` with an otherwise empty registry:
`create` must reject it with `KittiesCountOverflow`. -/
def stMaxC1 : State := ⟨some U32MAX, fun _ => none, fun _ => none, bal0⟩

/-- The registry after one successful `create` from genesis (kitty 1, owner 7). -/
def s1 : State :=
  { initState bal0 with
    kitties := insertM (initState bal0).kitties 1 ⟨dna0, none⟩
    owner := insertM (initState bal0).owner 1 7
    kittiesCount := some 2 }

/-- A registry holding the two example parents (ids 1 and 2, owner 7). -/
def sAB : State where
  kittiesCount := some 3
  kitties := fun i =>
    if i = 1 then some ⟨dnaA, none⟩ else if i = 2 then some ⟨dnaB, none⟩ else none
  owner := fun i => if i = 1 ∨ i = 2 then some 7 else none
  balances := bal0

/-- A registry with kitty 1 listed at price 10 by owner 3, and rich accounts. -/
def sBuyW : State where
  kittiesCount := some 2
  kitties := insertM (fun _ => none) 1 ⟨dna0, some 10⟩
  owner := insertM (fun _ => none) 1 3
  balances := fun _ => 100

/-- The registry after account 5 buys kitty 1 from owner 3 in `sBuyW`. -/
def sBuyW2 : State :=
  { sBuyW with
    balances := fun a =>
      if a = 3 then (if (3 : Nat) = 5 then 100 - 10 else 100) + 10
      else if a = 5 then 100 - 10 else 100
    owner := insertM sBuyW.owner 1 5
    kitties := insertM sBuyW.kitties 1 ⟨dna0, none⟩ }

/-- A registry with kitty 1 listed at price 10 by owner 5, who holds 20. -/
def sSelf : State where
  kittiesCount := some 2
  kitties := insertM (fun _ => none) 1 ⟨dna0, some 10⟩
  owner := insertM (fun _ => none) 1 5
  balances := fun _ => 20

/-- Does a call result carry the declared-but-unreachable `CanNotYourSelf`? -/
def isSelfErr : CallResult → Bool := fun r =>
  match r with
  | .err .CanNotYourSelf _ => true
  | _ => false

/-- The registry after `n` successful `create` calls by account 7 under
`h0`, `enc0`, `env0`: counter `n + 1` (absent at genesis), kitties `1..n`. -/
def mkNState (n : Nat) : State where
  kittiesCount := if n = 0 then none else some (n + 1)
  kitties := fun i => if 1 ≤ i ∧ i ≤ n then some ⟨dna0, none⟩ else none
  owner := fun i => if 1 ≤ i ∧ i ≤ n then some 7 else none
  balances := bal0

/-- The registry with the counter at `u32::MAX`, reached by `u32::MAX - 1`
successful creates. -/
def sTop : State := mkNState (U32MAX - 1)

/-- The registry after `breed` runs at counter `u32::MAX`: the child sits at
id `u32::MAX` and the counter has wrapped to 0. -/
def sWrap : State :=
  { sTop with
    kitties := insertM sTop.kitties U32MAX ⟨dna0, none⟩
    owner := insertM sTop.owner U32MAX 9
    kittiesCount := some 0 }

/-- The registry after a further `create` at the wrapped counter: identifier 0
has been issued and the counter is 1. -/
def sZero : State :=
  { sWrap with
    kitties := insertM sWrap.kitties 0 ⟨dna0, none⟩
    owner := insertM sWrap.owner 0 5
    kittiesCount := some 1 }

/-- The registry after yet another `create`: identifier 1 is reissued and the
original kitty 1's genome is replaced by `dna1`. -/
def sOver : State :=
  { sZero with
    kitties := insertM sZero.kitties 1 ⟨dna1, none⟩
    owner := insertM sZero.owner 1 5
    kittiesCount := some 2 }

/-! ## Inversion lemmas for the four dispatchables -/

/-- Inverting a successful `create`: the minted id is 1 on an unset counter or
the (non-max) counter value, and the post-state is the three writes. -/
theorem create_ok {hash enc env who st st' ev}
    (h : create hash enc env who st = .ok st' ev) :
    ∃ kid, (st.kittiesCount = none ∧ kid = 1 ∨
            st.kittiesCount = some kid ∧ kid ≠ U32MAX) ∧
      st' = { st with
              kitties := insertM st.kitties kid ⟨gen_dna hash enc env, none⟩
              owner := insertM st.owner kid who
              kittiesCount := some ((kid + 1) % 2 ^ 32) } ∧
      ev = .KittyCreate who kid := by
  unfold create at h
  rcases hc : st.kittiesCount with _ | index
  · rw [hc] at h
    simp only [CallResult.ok.injEq] at h
    exact ⟨1, Or.inl ⟨rfl, rfl⟩, h.1.symm, h.2.symm⟩
  · rw [hc] at h
    by_cases hmax : index = U32MAX
    · simp [hmax] at h
    · simp only [hmax, if_false, CallResult.ok.injEq] at h
      exact ⟨index, Or.inr ⟨rfl, hmax⟩, h.1.symm, h.2.symm⟩

/-- Inverting a successful `breed`: distinct existing parents, child minted at
`nextId st` with the combined genome, counter put back wrapped. -/
theorem breed_ok {hash enc env who k1 k2 st st' ev}
    (h : breed hash enc env who k1 k2 st = .ok st' ev) :
    ∃ kitty1 kitty2, k1 ≠ k2 ∧ st.kitties k1 = some kitty1 ∧
      st.kitties k2 = some kitty2 ∧
      st' = { st with
              kitties := insertM st.kitties (nextId st)
                ⟨childDna (gen_dna hash enc env) kitty1.dna kitty2.dna, none⟩
              owner := insertM st.owner (nextId st) who
              kittiesCount := some ((nextId st + 1) % 2 ^ 32) } ∧
      ev = .BreedSuccess who k1 k2 := by
  unfold breed at h
  by_cases hne : k1 = k2
  · simp [hne] at h
  rw [if_neg hne] at h
  rcases h1 : st.kitties k1 with _ | kitty1
  · rw [h1] at h; exact absurd h (by simp)
  rw [h1] at h
  rcases h2 : st.kitties k2 with _ | kitty2
  · rw [h2] at h; exact absurd h (by simp)
  rw [h2] at h
  simp only [CallResult.ok.injEq] at h
  exact ⟨kitty1, kitty2, hne, rfl, rfl, h.1.symm, h.2.symm⟩

/-- Inverting a successful `set_price`: the kitty exists, the sender owns it,
the price is positive, and the only write is the re-priced kitty record. -/
theorem set_price_ok {sender kitty_id price st st' ev}
    (h : set_price sender kitty_id price st = .ok st' ev) :
    ∃ kitty, st.kitties kitty_id = some kitty ∧
      st.owner kitty_id = some sender ∧ 0 < price ∧
      st' = { st with
              kitties := insertM st.kitties kitty_id ⟨kitty.dna, some price⟩ } ∧
      ev = .SetPriceSuccess sender kitty_id price := by
  unfold set_price at h
  rcases hk : st.kitties kitty_id with _ | kitty <;> rw [hk] at h
  · exact absurd h (by simp)
  by_cases ho : st.owner kitty_id = some sender
  · by_cases hp : 0 < price
    · simp only [ho, if_true, hp, eq_self_iff_true, CallResult.ok.injEq] at h
      exact ⟨kitty, rfl, ho, hp, h.1.symm, h.2.symm⟩
    · simp [ho, hp] at h
  · simp [ho] at h

/-- Inverting a successful `buy_kitty`: the kitty exists with a price the
buyer can cover, the owner record yields the seller, the `KeepAlive` transfer
succeeds, and the post-state holds the new balances, the new owner, and the
kitty with its price cleared. -/
theorem buy_ok {ed buyer kitty_id st st' ev}
    (h : buy_kitty ed buyer kitty_id st = some (.ok st' ev)) :
    ∃ kitty price seller bal2, st.kitties kitty_id = some kitty ∧
      kitty.price = some price ∧ price ≤ st.balances buyer ∧
      st.owner kitty_id = some seller ∧
      transfer ed st.balances buyer seller price .KeepAlive = some bal2 ∧
      st' = { st with
              balances := bal2
              owner := insertM st.owner kitty_id buyer
              kitties := insertM st.kitties kitty_id ⟨kitty.dna, none⟩ } ∧
      ev = .TransferSuccess buyer seller kitty_id := by
  unfold buy_kitty at h
  rcases hk : st.kitties kitty_id with _ | kitty <;> rw [hk] at h
  · exact absurd h (by simp)
  rcases hp : kitty.price with _ | price
  · simp [hp] at h
  by_cases hb : st.balances buyer < price
  · simp [hp, hb] at h
  rcases ho : st.owner kitty_id with _ | seller
  · simp [hp, hb, ho] at h
  rcases ht : transfer ed st.balances buyer seller price .KeepAlive with _ | bal2
  · simp [hp, hb, ho, ht] at h
  simp only [hp, hb, if_false, ho, ht, Option.some.injEq, CallResult.ok.injEq] at h
  exact ⟨kitty, price, seller, bal2, by simp [hk], by simp [hp],
    Nat.le_of_not_lt hb, by simp [ho], ht, h.1.symm, h.2.symm⟩

/-- `create` returns every error with the untouched input state. -/
theorem create_err {hash enc env who st e st'}
    (h : create hash enc env who st = .err e st') : st' = st := by
  unfold create at h
  rcases hc : st.kittiesCount with _ | index
  · rw [hc] at h; exact absurd h (by simp)
  · rw [hc] at h
    by_cases hmax : index = U32MAX
    · simp only [hmax, if_true, CallResult.err.injEq] at h
      exact h.2.symm
    · simp [hmax] at h

/-- `breed` returns every error with the untouched input state. -/
theorem breed_err {hash enc env who k1 k2 st e st'}
    (h : breed hash enc env who k1 k2 st = .err e st') : st' = st := by
  unfold breed at h
  by_cases hne : k1 = k2
  · simp only [hne, if_true, CallResult.err.injEq] at h
    exact h.2.symm
  rw [if_neg hne] at h
  rcases h1 : st.kitties k1 with _ | kitty1
  · rw [h1] at h
    simp only [CallResult.err.injEq] at h
    exact h.2.symm
  rw [h1] at h
  rcases h2 : st.kitties k2 with _ | kitty2
  · rw [h2] at h
    simp only [CallResult.err.injEq] at h
    exact h.2.symm
  · rw [h2] at h; exact absurd h (by simp)

/-- `set_price` returns every error with the untouched input state. -/
theorem set_price_err {sender kitty_id price st e st'}
    (h : set_price sender kitty_id price st = .err e st') : st' = st := by
  unfold set_price at h
  rcases hk : st.kitties kitty_id with _ | kitty <;> rw [hk] at h
  · simp only [CallResult.err.injEq] at h
    exact h.2.symm
  by_cases ho : st.owner kitty_id = some sender
  · by_cases hp : 0 < price
    · simp [ho, hp] at h
    · simp only [ho, if_true, hp, if_false, eq_self_iff_true,
        CallResult.err.injEq] at h
      exact h.2.symm
  · simp only [ho, if_false, CallResult.err.injEq] at h
    exact h.2.symm

/-- `buy_kitty` returns every error with the untouched input state: all three
registry writes and the balance mutation sit behind the last failure point
(the transfer), and `#[transactional]` discards them on a failed transfer. -/
theorem buy_err {ed buyer kitty_id st e st'}
    (h : buy_kitty ed buyer kitty_id st = some (.err e st')) : st' = st := by
  unfold buy_kitty at h
  rcases hk : st.kitties kitty_id with _ | kitty <;> rw [hk] at h
  · simp only [Option.some.injEq, CallResult.err.injEq] at h
    exact h.2.symm
  rcases hp : kitty.price with _ | price
  · simp only [hp, Option.some.injEq, CallResult.err.injEq] at h
    exact h.2.symm
  by_cases hb : st.balances buyer < price
  · simp only [hp, hb, if_true, Option.some.injEq, CallResult.err.injEq] at h
    exact h.2.symm
  rcases ho : st.owner kitty_id with _ | seller
  · simp [hp, hb, ho] at h
  rcases ht : transfer ed st.balances buyer seller price .KeepAlive with _ | bal2
  · simp only [hp, hb, if_false, ho, ht, Option.some.injEq,
      CallResult.err.injEq] at h
    exact h.2.symm
  · simp [hp, hb, ho, ht] at h

/-! ## Registry invariants -/

/-- In every reachable state, an id has an asset record iff it has an owner
record. -/
theorem kitties_owner_iff {hash enc ed st} (hr : Reachable hash enc ed st) :
    ∀ i, (st.kitties i).isSome ↔ (st.owner i).isSome := by
  induction hr with
  | init bal => intro i; simp [initState]
  | stepCreate hprev hok ih =>
    obtain ⟨kid, _, rfl, _⟩ := create_ok hok
    intro i
    by_cases hik : i = kid <;> simp [insertM, hik, ih i]
  | @stepBreed st st' env who k1 k2 ev hprev hok ih =>
    obtain ⟨kitty1, kitty2, _, _, _, rfl, _⟩ := breed_ok hok
    intro i
    by_cases hik : i = nextId st <;> simp [insertM, hik, ih i]
  | @stepSetPrice st st' who k price ev hprev hok ih =>
    obtain ⟨kitty, hk, ho, _, rfl, _⟩ := set_price_ok hok
    intro i
    by_cases hik : i = k
    · subst hik
      simp [insertM, ho]
    · simp [insertM, hik, ih i]
  | @stepBuy st st' buyer k ev hprev hok ih =>
    obtain ⟨kitty, price, seller, bal2, _, _, _, _, _, rfl, _⟩ := buy_ok hok
    intro i
    by_cases hik : i = k <;> simp [insertM, hik, ih i]
  | extBalance bal hprev ih => exact ih

/-- In every reachable state, every stored price is strictly positive. -/
theorem price_positive {hash enc ed st} (hr : Reachable hash enc ed st) :
    ∀ i kit p, st.kitties i = some kit → kit.price = some p → 0 < p := by
  induction hr with
  | init bal => intro i kit p hk; simp [initState] at hk
  | stepCreate hprev hok ih =>
    obtain ⟨kid, _, rfl, _⟩ := create_ok hok
    intro i kit p hk hp
    by_cases hik : i = kid
    · subst hik
      simp [insertM] at hk
      rw [← hk] at hp
      simp at hp
    · simp [insertM, hik] at hk
      exact ih i kit p hk hp
  | @stepBreed st st' env who k1 k2 ev hprev hok ih =>
    obtain ⟨kitty1, kitty2, _, _, _, rfl, _⟩ := breed_ok hok
    intro i kit p hk hp
    by_cases hik : i = nextId st
    · subst hik
      simp [insertM] at hk
      rw [← hk] at hp
      simp at hp
    · simp [insertM, hik] at hk
      exact ih i kit p hk hp
  | @stepSetPrice st st' who k price ev hprev hok ih =>
    obtain ⟨kitty, hk0, ho, hpos, rfl, _⟩ := set_price_ok hok
    intro i kit p hk hp
    by_cases hik : i = k
    · subst hik
      simp [insertM] at hk
      rw [← hk] at hp
      simp only [Option.some.injEq] at hp
      exact hp ▸ hpos
    · simp [insertM, hik] at hk
      exact ih i kit p hk hp
  | @stepBuy st st' buyer k ev hprev hok ih =>
    obtain ⟨kitty, price, seller, bal2, _, _, _, _, _, rfl, _⟩ := buy_ok hok
    intro i kit p hk hp
    by_cases hik : i = k
    · subst hik
      simp [insertM] at hk
      rw [← hk] at hp
      simp at hp
    · simp [insertM, hik] at hk
      exact ih i kit p hk hp
  | extBalance bal hprev ih => exact ih

/-! ## No code path returns `CanNotYourSelf` -/

/-- `create` never returns the `CanNotYourSelf` error. -/
theorem create_no_self (hash : List Nat → Dna) (enc : List Nat → Nat → List Nat)
    (env : Env) (who : Nat) (st : State) :
    isSelfErr (create hash enc env who st) = false := by
  unfold create
  rcases st.kittiesCount with _ | index
  · simp [isSelfErr]
  · by_cases h : index = U32MAX <;> simp [h, isSelfErr]

/-- `breed` never returns the `CanNotYourSelf` error. -/
theorem breed_no_self (hash : List Nat → Dna) (enc : List Nat → Nat → List Nat)
    (env : Env) (who k1 k2 : Nat) (st : State) :
    isSelfErr (breed hash enc env who k1 k2 st) = false := by
  unfold breed
  by_cases hne : k1 = k2
  · simp [hne, isSelfErr]
  rw [if_neg hne]
  rcases st.kitties k1 with _ | kitty1
  · simp [isSelfErr]
  rcases st.kitties k2 with _ | kitty2 <;> simp [isSelfErr]

/-- `set_price` never returns the `CanNotYourSelf` error. -/
theorem set_price_no_self (sender kitty_id price : Nat) (st : State) :
    isSelfErr (set_price sender kitty_id price st) = false := by
  unfold set_price
  rcases st.kitties kitty_id with _ | kitty
  · simp [isSelfErr]
  by_cases ho : st.owner kitty_id = some sender
  · by_cases hp : 0 < price <;> simp [ho, hp, isSelfErr]
  · simp [ho, isSelfErr]

/-- `buy_kitty` never returns the `CanNotYourSelf` error. -/
theorem buy_no_self (ed buyer kitty_id : Nat) (st : State) :
    Option.all (fun r => !isSelfErr r) (buy_kitty ed buyer kitty_id st) = true := by
  unfold buy_kitty
  rcases st.kitties kitty_id with _ | kitty
  · simp [isSelfErr]
  rcases hp : kitty.price with _ | price
  · simp [hp, isSelfErr]
  by_cases hb : st.balances buyer < price
  · simp [hp, hb, isSelfErr]
  rcases ho : st.owner kitty_id with _ | seller
  · simp [hp, hb, ho]
  rcases ht : transfer ed st.balances buyer seller price .KeepAlive with _ | bal2 <;>
    simp [hp, hb, ho, ht, isSelfErr]

/-! ## The counter-wrap trace: u32::MAX - 1 creates, one breed, two creates -/

/-- `create` on an unset counter mints id 1 and puts the counter to 2. -/
theorem create_of_count_none (hash : List Nat → Dna) (enc : List Nat → Nat → List Nat)
    (env : Env) (who : Nat) (st : State) (hc : st.kittiesCount = none) :
    create hash enc env who st = .ok
      { st with
        kitties := insertM st.kitties 1 ⟨gen_dna hash enc env, none⟩
        owner := insertM st.owner 1 who
        kittiesCount := some 2 } (.KittyCreate who 1) := by
  unfold create
  rw [hc]
  rfl

/-- `create` on counter `c ≠ u32::MAX` mints id `c` and puts back `c + 1`. -/
theorem create_of_count_some (hash : List Nat → Dna) (enc : List Nat → Nat → List Nat)
    (env : Env) (who : Nat) (st : State) (c : Nat) (hc : st.kittiesCount = some c)
    (hne : c ≠ U32MAX) (hlt : c + 1 < 2 ^ 32) :
    create hash enc env who st = .ok
      { st with
        kitties := insertM st.kitties c ⟨gen_dna hash enc env, none⟩
        owner := insertM st.owner c who
        kittiesCount := some (c + 1) } (.KittyCreate who c) := by
  unfold create
  rw [hc]
  by_cases h : c = U32MAX
  · exact absurd h hne
  simp only [h, ite_false]
  rw [Nat.mod_eq_of_lt hlt]

/-- One `create` step in the closed-form trace of account 7's creates. -/
theorem createStep (n : Nat) (hn : n + 1 < U32MAX) :
    create h0 enc0 env0 7 (mkNState n) = .ok (mkNState (n + 1)) (.KittyCreate 7 (n + 1)) := by
  have h32 : (2 : Nat) ^ 32 = 4294967296 := by norm_num
  have hU : U32MAX = 4294967295 := rfl
  rcases n with _ | m
  · rw [create_of_count_none h0 enc0 env0 7 (mkNState 0) (by simp [mkNState])]
    congr 1
    refine State.ext ?_ ?_ ?_ rfl
    · simp [mkNState]
    · funext i
      simp only [mkNState, insertM]
      rcases Nat.lt_trichotomy i 1 with h | h | h <;>
        · split_ifs <;> first | rfl | omega
    · funext i
      simp only [mkNState, insertM]
      rcases Nat.lt_trichotomy i 1 with h | h | h <;>
        · split_ifs <;> first | rfl | omega
  · rw [create_of_count_some h0 enc0 env0 7 (mkNState (m + 1)) (m + 2)
      (by simp [mkNState]) (by omega) (by omega)]
    congr 1
    refine State.ext ?_ ?_ ?_ rfl
    · simp [mkNState]
    · funext i
      simp only [mkNState, insertM]
      split_ifs <;> first | rfl | omega
    · funext i
      simp only [mkNState, insertM]
      split_ifs <;> first | rfl | omega

/-- Every closed-form trace state below the counter cap is reachable. -/
theorem reach_mkNState (n : Nat) (hn : n + 1 ≤ U32MAX) :
    Reachable h0 enc0 0 (mkNState n) := by
  induction n with
  | zero =>
    have h : mkNState 0 = initState bal0 := by
      refine State.ext (by simp [mkNState, initState]) ?_ ?_ rfl
      · funext i
        simp only [mkNState, initState]
        split_ifs <;> first | rfl | omega
      · funext i
        simp only [mkNState, initState]
        split_ifs <;> first | rfl | omega
    rw [h]
    exact .init bal0
  | succ m ih =>
    have hU : U32MAX = 4294967295 := rfl
    exact .stepCreate (ih (by omega)) (createStep m (by omega))

/-- At counter = `u32::MAX`, `breed` succeeds: it mints id `u32::MAX` and
wraps the counter to 0 instead of failing with `KittiesCountOverflow`. -/
theorem breedTop : breed h0 enc0 env0 9 1 2 sTop = .ok sWrap (.BreedSuccess 9 1 2) := by
  have hch : childDna (gen_dna h0 enc0 env0) dna0 dna0 = dna0 := by
    funext i
    show (0 &&& 0) ||| (0 &&& 0) = 0
    rfl
  unfold breed
  rw [show sTop.kitties 1 = some ⟨dna0, none⟩ from rfl,
      show sTop.kitties 2 = some ⟨dna0, none⟩ from rfl]
  show CallResult.ok
      { sTop with
        kitties := insertM sTop.kitties U32MAX ⟨childDna (gen_dna h0 enc0 env0) dna0 dna0, none⟩
        owner := insertM sTop.owner U32MAX 9
        kittiesCount := some 0 } (.BreedSuccess 9 1 2) =
    CallResult.ok sWrap (.BreedSuccess 9 1 2)
  rw [hch]
  rfl

/-- At the wrapped counter 0, `create` issues identifier 0. -/
theorem createAtWrap : create h0 enc0 env0 5 sWrap = .ok sZero (.KittyCreate 5 0) := rfl

/-- At counter 1 after the wrap, `create` reissues identifier 1, replacing
the first kitty's record (and its genome). -/
theorem createOverwrite : create h0 enc0 env1 5 sZero = .ok sOver (.KittyCreate 5 1) := rfl

/-- The counter-cap state is reachable (after u32::MAX - 1 creates). -/
theorem reach_sTop : Reachable h0 enc0 0 sTop :=
  reach_mkNState (U32MAX - 1) (by norm_num [U32MAX])

/-- The wrapped state is reachable. -/
theorem reach_sWrap : Reachable h0 enc0 0 sWrap := .stepBreed reach_sTop breedTop

/-- The state in which identifier 0 has been issued is reachable. -/
theorem reach_sZero : Reachable h0 enc0 0 sZero := .stepCreate reach_sWrap createAtWrap

/-- The state in which identifier 1 has been reissued is reachable. -/
theorem reach_sOver : Reachable h0 enc0 0 sOver := .stepCreate reach_sZero createOverwrite

/-- Inverting a successful `KeepAlive` transfer: the amount was covered, the
payer stays at or above the existential deposit, and the new balances are the
debit-then-credit update. -/
theorem transfer_some {ed : Nat} {bal : Nat → Nat} {src dst amount : Nat}
    {bal2 : Nat → Nat}
    (h : transfer ed bal src dst amount .KeepAlive = some bal2) :
    amount ≤ bal src ∧ ed ≤ bal2 src ∧
    bal2 = fun a =>
      if a = dst then (if dst = src then bal src - amount else bal dst) + amount
      else if a = src then bal src - amount else bal a := by
  unfold transfer at h
  by_cases hb : bal src < amount
  · simp [hb] at h
  rw [if_neg hb] at h
  dsimp only at h
  have hsplit : ∀ {c : Prop} (inst : Decidable c) {x : Nat → Nat},
      (if c then none else some x) = some bal2 → ¬c ∧ x = bal2 := by
    intro c inst x hx
    split at hx
    · exact absurd hx (by simp)
    · exact ⟨by assumption, Option.some.inj hx⟩
  obtain ⟨hnl, hbeq⟩ := hsplit _ h
  refine ⟨Nat.le_of_not_lt hb, ?_, hbeq.symm⟩
  rw [← hbeq]
  exact Nat.not_lt.mp hnl

/-- `create` from genesis mints kitty 1 for account 7, giving `s1`. -/
theorem create_init_s1 : create h0 enc0 env0 7 (initState bal0) = .ok s1 (.KittyCreate 7 1) := rfl

/-- The one-kitty registry `s1` is reachable. -/
theorem reach_s1 : Reachable h0 enc0 0 s1 := .stepCreate (.init bal0) create_init_s1

/-- Claim C1: for every entry point and every input, a call that returns an
error leaves the registry — the counter, the assets-by-id map and the
owners-by-id map — unchanged; in particular, when the funds transfer inside
`buy_kitty` fails, the asset's owner and its record (hence its price) are
unchanged. -/
theorem error_leaves_registry_unchanged
    (hash : List Nat → Dna) (enc : List Nat → Nat → List Nat) (env : Env)
    (ed who buyer k1 k2 k price : Nat) (st : State) :
    (∀ e st', create hash enc env who st = .err e st' →
      st'.kittiesCount = st.kittiesCount ∧ st'.kitties = st.kitties ∧
        st'.owner = st.owner) ∧
    (∀ e st', breed hash enc env who k1 k2 st = .err e st' →
      st'.kittiesCount = st.kittiesCount ∧ st'.kitties = st.kitties ∧
        st'.owner = st.owner) ∧
    (∀ e st', set_price who k price st = .err e st' →
      st'.kittiesCount = st.kittiesCount ∧ st'.kitties = st.kitties ∧
        st'.owner = st.owner) ∧
    (∀ e st', buy_kitty ed buyer k st = some (.err e st') →
      (st'.kittiesCount = st.kittiesCount ∧ st'.kitties = st.kitties ∧
        st'.owner = st.owner) ∧ st'.owner k = st.owner k ∧
        st'.kitties k = st.kitties k) := by
  refine ⟨?_, ?_, ?_, ?_⟩
  · intro e st' h
    obtain rfl := create_err h
    exact ⟨rfl, rfl, rfl⟩
  · intro e st' h
    obtain rfl := breed_err h
    exact ⟨rfl, rfl, rfl⟩
  · intro e st' h
    obtain rfl := set_price_err h
    exact ⟨rfl, rfl, rfl⟩
  · intro e st' h
    obtain rfl := buy_err h
    exact ⟨⟨rfl, rfl, rfl⟩, rfl, rfl⟩

/-- Witness for C1: each entry point rejecting a concrete call on a registry
whose counter sits at `u32::MAX`, leaving the registry unchanged. -/
theorem error_leaves_registry_unchanged_witness :
    (create h0 enc0 env0 7 stMaxC1 = .err .KittiesCountOverflow stMaxC1 ∧
      stMaxC1.kitties = stMaxC1.kitties) ∧
    (breed h0 enc0 env0 7 3 3 stMaxC1 = .err .GenesCanNotSame stMaxC1 ∧
      stMaxC1.owner = stMaxC1.owner) ∧
    (set_price 7 1 5 stMaxC1 = .err .InvalidKittyIndex stMaxC1 ∧
      stMaxC1.kittiesCount = stMaxC1.kittiesCount) ∧
    (buy_kitty 0 7 1 stMaxC1 = some (.err .InvalidKittyIndex stMaxC1) ∧
      stMaxC1.owner 1 = stMaxC1.owner 1 ∧
      stMaxC1.kitties 1 = stMaxC1.kitties 1) := by
  refine ⟨⟨rfl, ?_⟩, ⟨rfl, ?_⟩, ⟨rfl, ?_⟩, ⟨rfl, ?_, ?_⟩⟩
  · exact ((error_leaves_registry_unchanged h0 enc0 env0 0 7 7 3 3 1 5
      stMaxC1).1 .KittiesCountOverflow stMaxC1 rfl).2.1
  · exact ((error_leaves_registry_unchanged h0 enc0 env0 0 7 7 3 3 1 5
      stMaxC1).2.1 .GenesCanNotSame stMaxC1 rfl).2.2
  · exact ((error_leaves_registry_unchanged h0 enc0 env0 0 7 7 3 3 1 5
      stMaxC1).2.2.1 .InvalidKittyIndex stMaxC1 rfl).1
  · exact ((error_leaves_registry_unchanged h0 enc0 env0 0 7 7 3 3 1 5
      stMaxC1).2.2.2 .InvalidKittyIndex stMaxC1 rfl).2.1
  · exact ((error_leaves_registry_unchanged h0 enc0 env0 0 7 7 3 3 1 5
      stMaxC1).2.2.2 .InvalidKittyIndex stMaxC1 rfl).2.2

/-- Claim C2 is refuted by the code: `breed` does not derive its identifier as
`create` does.  At a reachable state whose counter equals `u32::MAX` (where
`create` fails with `KittiesCountOverflow`), `breed` performs no overflow
check: it succeeds, creates the asset at id `u32::MAX`, and wraps the counter
to 0. -/
theorem breed_missing_overflow_check :
    sTop.kittiesCount = some U32MAX ∧
    Reachable h0 enc0 0 sTop ∧
    (∀ hash enc env who, create hash enc env who sTop = .err .KittiesCountOverflow sTop) ∧
    breed h0 enc0 env0 9 1 2 sTop = .ok sWrap (.BreedSuccess 9 1 2) ∧
    sWrap.kittiesCount = some 0 ∧
    sWrap.kitties U32MAX = some ⟨dna0, none⟩ :=
  ⟨rfl, reach_sTop, fun _ _ _ _ => rfl, breedTop, rfl, rfl⟩

/-- Claim C3 is refuted by the code (same root cause as C2): along a reachable
trace of successful calls — `u32::MAX - 1` creates, one `breed` at the full
counter, one more `create` — identifier 0 is issued, and at the intermediate
state the stored counter 0 is not greater than the already-issued id
`u32::MAX`. -/
theorem identifier_zero_issued_after_wrap :
    Reachable h0 enc0 0 sWrap ∧
    sWrap.kittiesCount = some 0 ∧
    (sWrap.kitties U32MAX).isSome = true ∧
    create h0 enc0 env0 5 sWrap = .ok sZero (.KittyCreate 5 0) ∧
    sZero.kitties 0 = some ⟨dna0, none⟩ ∧
    Reachable h0 enc0 0 sZero :=
  ⟨reach_sWrap, rfl, rfl, createAtWrap, rfl, reach_sZero⟩

/-- Claim C8 is refuted by the code (same root cause as C2): after the counter
wraps, a later successful `create` reissues identifier 1 and replaces asset
1's record, changing its stored genome from `dna0` to `dna1`. -/
theorem genome_overwritten_after_wrap :
    Reachable h0 enc0 0 sZero ∧
    sZero.kitties 1 = some ⟨dna0, none⟩ ∧
    create h0 enc0 env1 5 sZero = .ok sOver (.KittyCreate 5 1) ∧
    sOver.kitties 1 = some ⟨dna1, none⟩ ∧
    dna0 ≠ dna1 := by
  refine ⟨reach_sZero, rfl, createOverwrite, rfl, ?_⟩
  intro h
  have h01 : (0 : Nat) = 1 := congrFun h ⟨0, by norm_num⟩
  exact absurd h01 (by decide)

/-- Claim C4: in every reachable state, an identifier has an asset record iff
it has an owner record, and consequently the owner lookup inside `buy_kitty`
always finds an owner for an existing asset — the `unwrap` on the owner record
(modelled by a `none` result) never panics. -/
theorem asset_owner_consistency (hash : List Nat → Dna)
    (enc : List Nat → Nat → List Nat) (ed : Nat) (st : State)
    (hr : Reachable hash enc ed st) :
    (∀ i, (st.kitties i).isSome ↔ (st.owner i).isSome) ∧
    (∀ ed2 buyer k, (buy_kitty ed2 buyer k st).isSome = true) := by
  refine ⟨kitties_owner_iff hr, ?_⟩
  intro ed2 buyer k
  unfold buy_kitty
  rcases hk : st.kitties k with _ | kitty
  · simp
  rcases hp : kitty.price with _ | price
  · simp [hp]
  by_cases hb : st.balances buyer < price
  · simp [hp, hb]
  have hko : (st.owner k).isSome := (kitties_owner_iff hr k).1 (by simp [hk])
  rcases ho : st.owner k with _ | seller
  · rw [ho] at hko
    simp at hko
  rcases ht : transfer ed2 st.balances buyer seller price .KeepAlive with _ | bal2 <;>
    simp [hp, hb, ho, ht]

/-- Witness for C4: the consistency equivalence and the no-panic property,
instantiated at the reachable one-kitty registry `s1`. -/
theorem asset_owner_consistency_witness :
    ((s1.kitties 1).isSome ↔ (s1.owner 1).isSome) ∧
    ((buy_kitty 0 5 1 s1).isSome = true) :=
  ⟨(asset_owner_consistency h0 enc0 0 s1 reach_s1).1 1,
   (asset_owner_consistency h0 enc0 0 s1 reach_s1).2 0 5 1⟩

/-- Claim C5: a successful `breed` stores, at the freshly minted id, the child
whose genome is byte-for-byte `(M[i] &&& A[i]) ||| (M[i] &&& B[i])` for the
drawn mask M and the parents' genomes A and B; on the spec's example bytes
`A = 0x00`, `B = 0xFF`, `M = 0x0F`, every child byte is `0x0F`. -/
theorem breed_child_genome_formula :
    (∀ (hash : List Nat → Dna) (enc : List Nat → Nat → List Nat) (env : Env)
       (who k1 k2 : Nat) (st st' : State) (ev : Event) (kitty1 kitty2 : Kitty),
       breed hash enc env who k1 k2 st = .ok st' ev →
       st.kitties k1 = some kitty1 → st.kitties k2 = some kitty2 →
       st'.kitties (nextId st) =
         some ⟨childDna (gen_dna hash enc env) kitty1.dna kitty2.dna, none⟩ ∧
       ∀ i, childDna (gen_dna hash enc env) kitty1.dna kitty2.dna i =
         (gen_dna hash enc env i &&& kitty1.dna i) |||
           (gen_dna hash enc env i &&& kitty2.dna i)) ∧
    (childDna (fun _ => 15) (fun _ => 0) (fun _ => 255) = fun _ => 15) := by
  constructor
  · intro hash enc env who k1 k2 st st' ev kitty1 kitty2 h hk1 hk2
    obtain ⟨a, b, hne, ha, hb, rfl, hev⟩ := breed_ok h
    rw [ha] at hk1
    rw [hb] at hk2
    obtain rfl : a = kitty1 := Option.some.inj hk1
    obtain rfl : b = kitty2 := Option.some.inj hk2
    exact ⟨by simp [insertM], fun i => rfl⟩
  · funext i
    show (15 &&& 0) ||| (15 &&& 255) = 15
    rfl

/-- Witness for C5: breeding the concrete parents of `sAB` (genomes all-0x00
and all-0xFF) under the mask all-0x0F stores the expected child. -/
theorem breed_child_genome_formula_witness :
    ∃ st', breed h0 enc0 env15 7 1 2 sAB = .ok st' (.BreedSuccess 7 1 2) ∧
      st'.kitties (nextId sAB) =
        some ⟨childDna (gen_dna h0 enc0 env15) dnaA dnaB, none⟩ := by
  refine ⟨_, rfl, ?_⟩
  exact (breed_child_genome_formula.1 h0 enc0 env15 7 1 2 sAB _ _
    ⟨dnaA, none⟩ ⟨dnaB, none⟩ rfl rfl rfl).1

/-- Claim C6: a successful `buy_kitty` transfers exactly the listed price from
the caller to the previous owner through the `KeepAlive` transfer capability,
reassigns ownership to the caller, clears the price, and its
`TransferSuccess` event exists only on the fully successful result (the `ok`
constructor is the only one carrying an event). -/
theorem buy_success_effects (ed buyer kitty_id : Nat) (st st' : State) (ev : Event)
    (h : buy_kitty ed buyer kitty_id st = some (.ok st' ev)) :
    ∃ kitty price seller,
      st.kitties kitty_id = some kitty ∧ kitty.price = some price ∧
      st.owner kitty_id = some seller ∧
      transfer ed st.balances buyer seller price .KeepAlive = some st'.balances ∧
      st'.owner kitty_id = some buyer ∧
      st'.kitties kitty_id = some ⟨kitty.dna, none⟩ ∧
      ev = .TransferSuccess buyer seller kitty_id ∧
      (buyer ≠ seller →
        st'.balances buyer = st.balances buyer - price ∧
        st'.balances seller = st.balances seller + price ∧
        price ≤ st.balances buyer ∧ ed ≤ st.balances buyer - price) := by
  obtain ⟨kitty, price, seller, bal2, hk, hp, hble, ho, ht, rfl, rfl⟩ := buy_ok h
  obtain ⟨hble2, hed, hb2⟩ := transfer_some ht
  refine ⟨kitty, price, seller, hk, hp, ho, ht, by simp [insertM],
    by simp [insertM], rfl, ?_⟩
  intro hne
  have hnsb : seller ≠ buyer := fun hsb => hne hsb.symm
  refine ⟨?_, ?_, hble2, ?_⟩
  · show bal2 buyer = st.balances buyer - price
    rw [hb2]
    simp [hne]
  · show bal2 seller = st.balances seller + price
    rw [hb2]
    simp [hnsb]
  · have : bal2 buyer = st.balances buyer - price := by
      rw [hb2]
      simp [hne]
    rw [← this]
    exact hed

/-- Witness for C6: account 5 buys kitty 1 from owner 3 at price 10 with
balance 100, in the registry `sBuyW`. -/
theorem buy_success_effects_witness :
    ∃ kitty price seller,
      sBuyW.kitties 1 = some kitty ∧ kitty.price = some price ∧
      sBuyW.owner 1 = some seller ∧
      transfer 0 sBuyW.balances 5 seller price .KeepAlive = some sBuyW2.balances ∧
      sBuyW2.owner 1 = some 5 ∧ sBuyW2.kitties 1 = some ⟨kitty.dna, none⟩ := by
  obtain ⟨kitty, price, seller, h1, h2, h3, h4, h5, h6, h7, h8⟩ :=
    buy_success_effects 0 5 1 sBuyW sBuyW2 (.TransferSuccess 5 3 1) rfl
  exact ⟨kitty, price, seller, h1, h2, h3, h4, h5, h6⟩

/-- Claim C7: in every reachable state every stored price is strictly
positive, and `set_price` (on an existing, owned asset) rejects price 0 with
`PriceNotZero` without storing it. -/
theorem price_stored_positive (hash : List Nat → Dna)
    (enc : List Nat → Nat → List Nat) (ed : Nat) (st : State)
    (hr : Reachable hash enc ed st) :
    (∀ i kit p, st.kitties i = some kit → kit.price = some p → 0 < p) ∧
    (∀ who i kit, st.kitties i = some kit → st.owner i = some who →
      set_price who i 0 st = .err .PriceNotZero st) := by
  refine ⟨price_positive hr, ?_⟩
  intro who i kit hk ho
  unfold set_price
  rw [hk]
  simp [ho]

/-- Witness for C7: on the reachable one-kitty registry `s1`, the owner's
attempt to list at price 0 fails with `PriceNotZero`, state unchanged. -/
theorem price_stored_positive_witness :
    set_price 7 1 0 s1 = .err .PriceNotZero s1 :=
  (price_stored_positive h0 enc0 0 s1 reach_s1).2 7 1 ⟨dna0, none⟩ rfl rfl

/-- Claim C9: the derived genome is the digest of the encoding of the pair
(randomness drawn under the fixed tag "dna", current block height), so it is a
deterministic function of those two inputs: two environments agreeing on the
"dna" randomness and the block height yield identical genomes. -/
theorem gen_dna_deterministic :
    (∀ (hash : List Nat → Dna) (enc : List Nat → Nat → List Nat) (e1 e2 : Env),
      e1.random dnaTag = e2.random dnaTag → e1.block = e2.block →
      gen_dna hash enc e1 = gen_dna hash enc e2) ∧
    (∀ (hash : List Nat → Dna) (enc : List Nat → Nat → List Nat) (env : Env),
      gen_dna hash enc env = hash (enc (env.random dnaTag) env.block)) ∧
    dnaTag = [100, 110, 97] := by
  refine ⟨?_, fun _ _ _ => rfl, rfl⟩
  intro hash enc e1 e2 hr hb
  unfold gen_dna
  rw [hr, hb]

/-- Witness for C9: `envA` and `envB` differ on other randomness queries but
agree on the "dna" tag and the block, and get the same genome. -/
theorem gen_dna_deterministic_witness :
    gen_dna h0 enc0 envA = gen_dna h0 enc0 envB :=
  gen_dna_deterministic.1 h0 enc0 envA envB rfl rfl

/-- Claim C10: `buy_kitty` never requires the caller to differ from the
current owner: whenever the asset exists with a set price and the (self-)
transfer of that price succeeds, the recorded owner buying their own asset
succeeds, staying owner, clearing the price and keeping every balance; and no
entry point ever returns the declared `CanNotYourSelf` error. -/
theorem self_buy_allowed_no_self_error :
    (∀ (ed who kitty_id : Nat) (st : State) (kitty : Kitty) (price : Nat)
       (bal2 : Nat → Nat),
       st.kitties kitty_id = some kitty → kitty.price = some price →
       st.owner kitty_id = some who →
       transfer ed st.balances who who price .KeepAlive = some bal2 →
       ∃ st', buy_kitty ed who kitty_id st =
           some (.ok st' (.TransferSuccess who who kitty_id)) ∧
         st'.owner kitty_id = some who ∧
         st'.kitties kitty_id = some ⟨kitty.dna, none⟩ ∧
         st'.balances = st.balances) ∧
    (∀ hash enc env who st, isSelfErr (create hash enc env who st) = false) ∧
    (∀ hash enc env who k1 k2 st, isSelfErr (breed hash enc env who k1 k2 st) = false) ∧
    (∀ sender k price st, isSelfErr (set_price sender k price st) = false) ∧
    (∀ ed buyer k st, Option.all (fun r => !isSelfErr r) (buy_kitty ed buyer k st) = true) := by
  refine ⟨?_, create_no_self, breed_no_self, set_price_no_self, buy_no_self⟩
  intro ed who kitty_id st kitty price bal2 hk hp ho htr
  obtain ⟨hble, hed, hb2⟩ := transfer_some htr
  have hbal : bal2 = st.balances := by
    rw [hb2]
    funext a
    by_cases ha : a = who
    · subst ha
      simp [Nat.sub_add_cancel hble]
    · simp [ha]
  subst hbal
  have hnb : ¬ st.balances who < price := Nat.not_lt.mpr hble
  refine ⟨{ st with
            balances := st.balances
            owner := insertM st.owner kitty_id who
            kitties := insertM st.kitties kitty_id ⟨kitty.dna, none⟩ },
    ?_, by simp [insertM], by simp [insertM], rfl⟩
  unfold buy_kitty
  rw [hk]
  simp [hp, hnb, ho, htr]

/-- Witness for C10: owner 5 (balance 20, deposit threshold 1) buys their own
kitty 1 listed at 10 in `sSelf`: the call succeeds, they remain owner, the
price clears and their balance is untouched. -/
theorem self_buy_allowed_no_self_error_witness :
    (∃ st', buy_kitty 1 5 1 sSelf = some (.ok st' (.TransferSuccess 5 5 1)) ∧
      st'.owner 1 = some 5 ∧ st'.kitties 1 = some ⟨dna0, none⟩ ∧
      st'.balances = sSelf.balances) ∧
    isSelfErr (create h0 enc0 env0 7 (initState bal0)) = false := by
  refine ⟨?_, self_buy_allowed_no_self_error.2.1 h0 enc0 env0 7 (initState bal0)⟩
  obtain ⟨st', h1, h2, h3, h4⟩ :=
    self_buy_allowed_no_self_error.1 1 5 1 sSelf ⟨dna0, some 10⟩ 10 _ rfl rfl rfl rfl
  exact ⟨st', h1, h2, h3, h4⟩
